import Mathlib

set_option maxRecDepth 100000

/-!
Verification development for the Magnus Compliance Engine audit-log core
(`backend/app/services/audit_service.py`): canonical JSON serialization,
the event chain hasher, the append service, and the chain verifier.

Machine words are modelled as `Nat` with explicit reduction modulo `2^32`;
SHA-256 is implemented concretely so that hashes of concrete inputs can be
evaluated inside proofs.
-/

namespace Magnus

/-! ## SHA-256 (concrete implementation, bytes as `Nat < 256`) -/

/-- Truncate to a 32-bit word. -/
def w32 (x : Nat) : Nat := x % 4294967296

/-- Rotate a 32-bit word right by `n` (the argument is assumed `< 2^32`). -/
def rotr (n x : Nat) : Nat := (x >>> n) + ((x % (2 ^ n)) <<< (32 - n))

def ch (x y z : Nat) : Nat := (x &&& y) ^^^ ((x ^^^ 4294967295) &&& z)

def maj (x y z : Nat) : Nat := (x &&& y) ^^^ (x &&& z) ^^^ (y &&& z)

def bigSigma0 (x : Nat) : Nat := rotr 2 x ^^^ rotr 13 x ^^^ rotr 22 x

def bigSigma1 (x : Nat) : Nat := rotr 6 x ^^^ rotr 11 x ^^^ rotr 25 x

def smallSigma0 (x : Nat) : Nat := rotr 7 x ^^^ rotr 18 x ^^^ (x >>> 3)

def smallSigma1 (x : Nat) : Nat := rotr 17 x ^^^ rotr 19 x ^^^ (x >>> 10)

/-- The 64 SHA-256 round constants (FIPS 180-4, written in decimal). -/
def shaK : List Nat :=
  [1116352408, 1899447441, 3049323471, 3921009573, 961987163,
   1508970993, 2453635748, 2870763221, 3624381080, 310598401,
   607225278, 1426881987, 1925078388, 2162078206, 2614888103,
   3248222580, 3835390401, 4022224774, 264347078, 604807628,
   770255983, 1249150122, 1555081692, 1996064986, 2554220882,
   2821834349, 2952996808, 3210313671, 3336571891, 3584528711,
   113926993, 338241895, 666307205, 773529912, 1294757372,
   1396182291, 1695183700, 1986661051, 2177026350, 2456956037,
   2730485921, 2820302411, 3259730800, 3345764771, 3516065817,
   3600352804, 4094571909, 275423344, 430227734, 506948616,
   659060556, 883997877, 958139571, 1322822218, 1537002063,
   1747873779, 1955562222, 2024104815, 2227730452, 2361852424,
   2428436474, 2756734187, 3204031479, 3329325298]

/-- Group bytes into big-endian 32-bit words. -/
def bytesToWords : List Nat → List Nat
  | b0 :: b1 :: b2 :: b3 :: rest =>
      ((b0 <<< 24) + (b1 <<< 16) + (b2 <<< 8) + b3) :: bytesToWords rest
  | _ => []

/-- One step of the message-schedule extension: append word `n` computed
from words `n-2`, `n-7`, `n-15`, `n-16`. -/
def extendStep (w : List Nat) : List Nat :=
  let n := w.length
  w ++ [w32 (smallSigma1 (w.getD (n - 2) 0) + w.getD (n - 7) 0 +
             smallSigma0 (w.getD (n - 15) 0) + w.getD (n - 16) 0)]

/-- Extend the 16 block words to the 64 schedule words. -/
def schedule (w : List Nat) : List Nat := extendStep^[48] w

/-- The eight 32-bit working variables of the compression function. -/
structure Hash8 where
  a : Nat
  b : Nat
  c : Nat
  d : Nat
  e : Nat
  f : Nat
  g : Nat
  h : Nat

/-- One compression round, consuming a `(k, w)` constant/schedule pair. -/
def shaRound (s : Hash8) (kw : Nat × Nat) : Hash8 :=
  let t1 := w32 (s.h + bigSigma1 s.e + ch s.e s.f s.g + kw.1 + kw.2)
  let t2 := w32 (bigSigma0 s.a + maj s.a s.b s.c)
  ⟨w32 (t1 + t2), s.a, s.b, s.c, w32 (s.d + t1), s.e, s.f, s.g⟩

/-- Compress one 64-byte block into the running hash state. -/
def compress (hs : Hash8) (block : List Nat) : Hash8 :=
  let ws := schedule (bytesToWords block)
  let s := (shaK.zip ws).foldl shaRound hs
  ⟨w32 (hs.a + s.a), w32 (hs.b + s.b), w32 (hs.c + s.c), w32 (hs.d + s.d),
   w32 (hs.e + s.e), w32 (hs.f + s.f), w32 (hs.g + s.g), w32 (hs.h + s.h)⟩

/-- Take `n` chunks of 64 bytes off the front of a byte list. -/
def chunksN : Nat → List Nat → List (List Nat)
  | 0, _ => []
  | n + 1, l => l.take 64 :: chunksN n (l.drop 64)

/-- Split a byte list (whose length is a multiple of 64 after padding) into
64-byte chunks. -/
def chunks (l : List Nat) : List (List Nat) := chunksN (l.length / 64) l

/-- Big-endian 8-byte rendering of a (64-bit) natural number. -/
def be64 (n : Nat) : List Nat :=
  [7, 6, 5, 4, 3, 2, 1, 0].map (fun i => (n >>> (8 * i)) % 256)

/-- SHA-256 padding: `0x80`, zeros to 56 mod 64, then the bit length. -/
def padMsg (msg : List Nat) : List Nat :=
  msg ++ 0x80 :: List.replicate ((119 - (msg.length % 64)) % 64) 0 ++
    be64 (8 * msg.length)

/-- Lowercase hex digit. -/
def hexDigit (n : Nat) : Char :=
  if n < 10 then Char.ofNat (48 + n) else Char.ofNat (87 + n)

/-- Eight lowercase hex characters of a 32-bit word, most significant first. -/
def wordHex (w : Nat) : List Char :=
  [7, 6, 5, 4, 3, 2, 1, 0].map (fun i => hexDigit ((w >>> (4 * i)) % 16))

/-- SHA-256 of a byte string, as the usual 64-character lowercase hex digest. -/
def sha256hex (msg : List Nat) : String :=
  let s := (chunks (padMsg msg)).foldl compress
    ⟨1779033703, 3144134277, 1013904242, 2773480762,
     1359893119, 2600822924, 528734635, 1541459225⟩
  String.mk (([s.a, s.b, s.c, s.d, s.e, s.f, s.g, s.h].map wordHex).flatten)

/-- UTF-8 encoding of one character. -/
def utf8Char (c : Char) : List Nat :=
  let n := c.toNat
  if n < 0x80 then [n]
  else if n < 0x800 then [0xC0 + (n >>> 6), 0x80 + n % 64]
  else if n < 0x10000 then
    [0xE0 + (n >>> 12), 0x80 + (n >>> 6) % 64, 0x80 + n % 64]
  else
    [0xF0 + (n >>> 18), 0x80 + (n >>> 12) % 64, 0x80 + (n >>> 6) % 64,
     0x80 + n % 64]

/-- UTF-8 encoding of a string (`str.encode("utf-8")`). -/
def utf8Encode (s : String) : List Nat := (s.data.map utf8Char).flatten


/-! ## JSON values and canonical serialization

`canonical_json(data)` in the source is `json.dumps(data, sort_keys=True,
separators=(",", ":"))`: keys sorted by code point, no whitespace,
`ensure_ascii` escaping. Numbers are modelled as integers (the payloads the
service hashes are built from ints and strings). -/

inductive Json where
  | null
  | bool (b : Bool)
  | num (n : Int)
  | str (s : String)
  | arr (elems : List Json)
  | obj (entries : List (String × Json))

/-- Code-point lexicographic comparison of character lists — the order Python
uses to compare `str` keys in `sorted`. -/
def charsLt : List Char → List Char → Bool
  | [], [] => false
  | [], _ :: _ => true
  | _ :: _, [] => false
  | c₁ :: t₁, c₂ :: t₂ =>
      if c₁.toNat < c₂.toNat then true
      else if c₂.toNat < c₁.toNat then false
      else charsLt t₁ t₂

def keyLt (a b : String) : Bool := charsLt a.data b.data

/-- Relation `a ≤ b` in Python's `str` order. -/
def keyLe (a b : String) : Bool := !(keyLt b a)

/-- Four lowercase hex digits (for `\uXXXX` escapes). -/
def hex4 (n : Nat) : List Char :=
  [3, 2, 1, 0].map (fun i => hexDigit ((n >>> (4 * i)) % 16))

/-- Escape one character the way `json.dumps` (with the default
`ensure_ascii=True`) does: `\"`, `\\`, the short control escapes, and
`\uXXXX` (with a surrogate pair above the BMP) for everything outside
ASCII 0x20–0x7E. -/
def escapeChar (c : Char) : List Char :=
  let n := c.toNat
  if n = 34 then ['\\', '"']
  else if n = 92 then ['\\', '\\']
  else if n = 8 then ['\\', 'b']
  else if n = 9 then ['\\', 't']
  else if n = 10 then ['\\', 'n']
  else if n = 12 then ['\\', 'f']
  else if n = 13 then ['\\', 'r']
  else if n < 32 || 126 < n then
    if n < 65536 then '\\' :: 'u' :: hex4 n
    else
      let m := n - 65536
      ('\\' :: 'u' :: hex4 (55296 + (m >>> 10))) ++
        ('\\' :: 'u' :: hex4 (56320 + (m % 1024)))
  else [c]

/-- A JSON string literal: quotes around the escaped characters. -/
def jsonString (s : String) : String :=
  String.mk ('"' :: (s.data.map escapeChar).flatten ++ ['"'])

/-- Join already-rendered items with `,` (the first `separators` component). -/
def joinComma : List String → String
  | [] => ""
  | [x] => x
  | x :: t => x ++ "," ++ joinComma t

/-- Insert a `(key, rendered)` pair into a list sorted by key. -/
def insertPair (p : String × String) : List (String × String) → List (String × String)
  | [] => [p]
  | q :: t => if keyLe p.1 q.1 then p :: q :: t else q :: insertPair p t

/-- Sort `(key, rendered)` pairs by key — `sort_keys=True`. Sorting the pairs
after rendering each entry is equivalent to Python's sorting of the items
before rendering, since rendering an entry does not depend on its position. -/
def sortPairs : List (String × String) → List (String × String)
  | [] => []
  | p :: t => insertPair p (sortPairs t)

mutual

/-- The source's `canonical_json(data)`: `json.dumps(data, sort_keys=True,
separators=(",", ":"))`. -/
def canonical_json : Json → String
  | .null => "null"
  | .bool true => "true"
  | .bool false => "false"
  | .num n => toString n
  | .str s => jsonString s
  | .arr elems => "[" ++ joinComma (canonElems elems) ++ "]"
  | .obj entries =>
      "\x7b" ++ joinComma ((sortPairs (canonEntries entries)).map Prod.snd) ++ "\x7d"

/-- Render each array element. -/
def canonElems : List Json → List String
  | [] => []
  | j :: t => canonical_json j :: canonElems t

/-- Render each object entry to `(key, "key":value)`. -/
def canonEntries : List (String × Json) → List (String × String)
  | [] => []
  | (k, v) :: t => (k, jsonString k ++ ":" ++ canonical_json v) :: canonEntries t

end

/-! ## Python-side values, timestamps, and the chain hasher -/

/-- The caller-supplied identifier values (`actor_id`, `org_id`, `entity_id`):
`None`, an `int`, or a `str` — enough to express Python truthiness and
`str(...)` as the service uses them. -/
inductive PyVal where
  | none
  | int (i : Int)
  | str (s : String)

/-- Python truthiness: `None`, `0` and `""` are falsy. -/
def PyVal.truthy : PyVal → Bool
  | .none => false
  | .int i => i != 0
  | .str s => s != ""

/-- Python `str(...)`. -/
def PyVal.pyStr : PyVal → String
  | .none => "None"
  | .int i => toString i
  | .str s => s

/-- A stored nullable text column, viewed as the Python value the ORM hands
back: `NULL ↦ None`, text `s ↦ s`. -/
def optPy : Option String → PyVal
  | Option.none => .none
  | Option.some s => .str s

/-- An aware UTC timestamp as produced by `now_utc()`
(`datetime.now(timezone.utc)`). -/
structure DateTime where
  year : Nat
  month : Nat
  day : Nat
  hour : Nat
  minute : Nat
  second : Nat
  microsecond : Nat

/-- Left-pad a decimal rendering with zeros to a fixed width. -/
def padNum (w n : Nat) : String :=
  let s := toString n
  String.mk (List.replicate (w - s.length) '0') ++ s

/-- Python `datetime.isoformat()` for an aware UTC value: the `.ffffff`
fraction is emitted only when `microsecond` is nonzero, and the offset is
rendered `+00:00`. -/
def DateTime.isoformat (t : DateTime) : String :=
  padNum 4 t.year ++ "-" ++ padNum 2 t.month ++ "-" ++ padNum 2 t.day ++ "T" ++
    padNum 2 t.hour ++ ":" ++ padNum 2 t.minute ++ ":" ++ padNum 2 t.second ++
    (if t.microsecond = 0 then "" else "." ++ padNum 6 t.microsecond) ++ "+00:00"

/-- Mixed-radix linearization of a timestamp. Python compares `datetime`
values field-lexicographically; on in-range field values (month ≤ 12,
day ≤ 31, hour ≤ 23, minute/second ≤ 60, microsecond < 10^6) this key is
order-isomorphic to that comparison, so `ORDER BY created_at` is modelled by
this `Nat` key. -/
def DateTime.key (t : DateTime) : Nat :=
  (((((t.year * 13 + t.month) * 32 + t.day) * 25 + t.hour) * 61 + t.minute)
      * 61 + t.second) * 1000000 + t.microsecond

/-- An `event_payload` argument: either a JSON-serializable value or a value
`json.dumps` rejects (`TypeError`), e.g. a `set` — `desc` names its type. -/
inductive Payload where
  | json (j : Json)
  | bad (desc : String)

/-- The Python exceptions the append path can surface. -/
inductive PyErr where
  | typeError (msg : String)
  | runtimeError (msg : String)
deriving DecidableEq

/-- Python's `json.dumps(data, sort_keys=True, separators=(",", ":"))` as the service
calls it: canonical text, or a `TypeError` for non-serializable input. -/
def dumpsPayload : Payload → Except PyErr String
  | .json j => .ok (canonical_json j)
  | .bad desc =>
      .error (.typeError ("Object of type " ++ desc ++ " is not JSON serializable"))

/-- The concatenation `compute_event_hash` hashes, given the already-serialized
payload: `(prev_event_hash or "") + (event_type or "") + (str(actor_id) if
actor_id else "") + (entity_type or "") + (str(entity_id) if entity_id else "")
+ payload_str + created_at.isoformat()`. -/
def hashInput (prev_event_hash : Option String) (event_type : Option String)
    (actor_id : PyVal) (entity_type : Option String) (entity_id : PyVal)
    (payload_str : String) (created_at : DateTime) : String :=
  (prev_event_hash.getD "") ++ (event_type.getD "") ++
    (if actor_id.truthy then actor_id.pyStr else "") ++ (entity_type.getD "") ++
    (if entity_id.truthy then entity_id.pyStr else "") ++ payload_str ++
    created_at.isoformat

/-- Function `compute_event_hash` from the source: serialize the payload (this is where
a `TypeError` escapes for non-serializable payloads), concatenate the fields,
and take the hex SHA-256 of the UTF-8 bytes. -/
def compute_event_hash (prev_event_hash : Option String)
    (event_type : Option String) (actor_id : PyVal) (entity_type : Option String)
    (entity_id : PyVal) (event_payload : Payload) (created_at : DateTime) :
    Except PyErr String :=
  match dumpsPayload event_payload with
  | .error e => .error e
  | .ok payload_str =>
      .ok (sha256hex (utf8Encode (hashInput prev_event_hash event_type actor_id
        entity_type entity_id payload_str created_at)))

/-- Function `compute_event_hash` specialized to a serializable payload (the only case
reachable from `verify_audit_chain`, whose payloads come from `json.loads` of
stored text). -/
def compute_event_hash_json (prev_event_hash : Option String)
    (event_type : Option String) (actor_id : PyVal) (entity_type : Option String)
    (entity_id : PyVal) (j : Json) (created_at : DateTime) : String :=
  sha256hex (utf8Encode (hashInput prev_event_hash event_type actor_id
    entity_type entity_id (canonical_json j) created_at))

/-! ## The event store, the append service, and the chain verifier

A stored `audit_events` row. `event_payload` is persisted as its canonical
text; since `json.loads` inverts `canonical_json` on the structured value, the
embedding keeps the structured value (the verifier re-canonicalizes it). -/

structure AuditEvent where
  id : String
  event_type : Option String
  actor_id : Option String
  org_id : Option String
  entity_type : Option String
  entity_id : Option String
  event_payload : Json
  created_at : DateTime
  prev_event_hash : Option String
  event_hash : String

/-- The database state the audit service touches: the `clients` registry
(primary keys) and the `audit_events` rows. Rows are kept in `created_at`
order — every query in the service orders by `created_at`, and the theorems
that rely on this carry the monotone-timestamp hypothesis that keeps insertion
order equal to that order. -/
structure DB where
  clients : List String
  events : List AuditEvent

/-- The `column == value` comparison as SQLAlchemy emits it for a nullable text
column: `== None` becomes `IS NULL`; an `int`/`str` value is compared against
the text (SQLite TEXT affinity converts the int to its decimal text). -/
def orgMatch (arg : PyVal) (stored : Option String) : Bool :=
  match arg with
  | .none => stored.isNone
  | v => stored == some v.pyStr

/-- The rows of one organization's chain, in `created_at` order. -/
def orgEvents (db : DB) (org_id : PyVal) : List AuditEvent :=
  db.events.filter (fun e => orgMatch org_id e.org_id)

/-- Query `ORDER BY created_at DESC LIMIT 1`: the row with the maximal
`created_at` (keeping the earlier row on ties). -/
def lastByCreated (l : List AuditEvent) : Option AuditEvent :=
  l.foldl (fun acc e =>
    match acc with
    | Option.none => some e
    | some a => if a.created_at.key < e.created_at.key then some e else some a)
    Option.none

/-- The observable steps of one `append_audit_event` call, recorded in
execution order so that claims about *when* an error is raised relative to the
lock acquisition, the last-event read, and the write can be stated. -/
inductive Op where
  | lockClient (found : Bool)
  | readLast
  | addEvent
  | commit
  | rollback
deriving DecidableEq

/-- The outcome of one `append_audit_event` call: the steps it performed, the
returned event or the exception raised, and the database afterwards. -/
structure AppendOut where
  ops : List Op
  result : Except PyErr AuditEvent
  db : DB

/-- Function `append_audit_event` from the source, as a state transition. Inputs the
caller does not control are explicit parameters: `now` (`now_utc()`), `newId`
(the fresh uuid4 primary key) and `commitOk` (whether `db.commit()` succeeds).

Control flow mirrors the Python line by line:
1. if `org_id` is truthy, `SELECT ... FOR UPDATE` on the `clients` row — the
   result of `.first()` is discarded, so a missing client does *not* stop the
   call;
2. read the last event for the org and take its `event_hash` as `prev_hash`;
3. `compute_event_hash` — a non-serializable payload raises `TypeError` here,
   after the lock and the read, and nothing is written;
4. build the row and `db.add` it;
5. `db.commit()`: on failure, roll back (store unchanged) and raise
   `RuntimeError("Audit log failure: ...")`; on success, return the persisted
   row. -/
def append_audit_event (db : DB) (event_type : Option String)
    (actor_id org_id : PyVal) (entity_type : Option String) (entity_id : PyVal)
    (event_payload : Payload) (now : DateTime) (newId : String)
    (commitOk : Bool) : AppendOut :=
  let lockOps : List Op :=
    if org_id.truthy then [.lockClient (db.clients.contains org_id.pyStr)] else []
  let last := lastByCreated (orgEvents db org_id)
  let prev_hash := last.map (fun e => e.event_hash)
  let ops := lockOps ++ [.readLast]
  match compute_event_hash prev_hash event_type actor_id entity_type
      entity_id event_payload now with
  | .error e => ⟨ops, .error e, db⟩
  | .ok event_hash =>
      let event : AuditEvent :=
        { id := newId
          event_type := event_type
          actor_id := if actor_id.truthy then some actor_id.pyStr else Option.none
          org_id := if org_id.truthy then some org_id.pyStr else Option.none
          entity_type := entity_type
          entity_id := if entity_id.truthy then some entity_id.pyStr else Option.none
          event_payload := match event_payload with
            | .json j => j
            | .bad _ => .null  -- unreachable: a bad payload errored in step 3
          created_at := now
          prev_event_hash := prev_hash
          event_hash := event_hash }
      if commitOk then
        ⟨ops ++ [.addEvent, .commit], .ok event,
          { db with events := db.events ++ [event] }⟩
      else
        ⟨ops ++ [.addEvent, .rollback],
          .error (.runtimeError "Audit log failure"), db⟩

/-- The result dictionary of `verify_audit_chain`. -/
structure VerifyResult where
  valid : Bool
  first_invalid_event_id : Option String
deriving DecidableEq

/-- The verifier's walk: maintain the expected previous hash (`prev_hash` in
the source), recompute each event's hash from it and the event's stored
fields, and stop at the first event whose stored `event_hash` differs. The
stored `prev_event_hash` is not consulted. -/
def verifyFrom (prev_hash : Option String) : List AuditEvent → VerifyResult
  | [] => ⟨true, Option.none⟩
  | e :: rest =>
      let expected_hash := compute_event_hash_json prev_hash e.event_type
        (optPy e.actor_id) e.entity_type (optPy e.entity_id) e.event_payload
        e.created_at
      if e.event_hash != expected_hash then ⟨false, some e.id⟩
      else verifyFrom (some e.event_hash) rest

/-- Function `verify_audit_chain` from the source: walk the organization's events in
`created_at` order. -/
def verify_audit_chain (db : DB) (org_id : PyVal) : VerifyResult :=
  verifyFrom Option.none (orgEvents db org_id)

/-! ## Derived notions used by the claims -/

/-- The caller-side arguments of one `append_audit_event` call, together with
the environment inputs of that call (`now_utc()`, the fresh uuid, commit
success). -/
structure AppendCall where
  event_type : Option String
  actor_id : PyVal
  entity_type : Option String
  entity_id : PyVal
  event_payload : Payload
  now : DateTime
  newId : String
  commitOk : Bool

/-- Run a sequence of `append_audit_event` calls for one organization,
threading the database. -/
def appendMany (org_id : PyVal) (db : DB) : List AppendCall → DB
  | [] => db
  | c :: t =>
      appendMany org_id
        (append_audit_event db c.event_type c.actor_id org_id c.entity_type
          c.entity_id c.event_payload c.now c.newId c.commitOk).db t

/-- The hash-chain shape, walked with the expected predecessor hash: event 0's
`prev_event_hash` is `p`, and each later event's `prev_event_hash` is the
previous event's `event_hash`. -/
def chainLinkedFrom (p : Option String) : List AuditEvent → Bool
  | [] => true
  | e :: t => (e.prev_event_hash == p) && chainLinkedFrom (some e.event_hash) t

/-- A singly linked hash chain: the first event's `prev_event_hash` is absent
and event `n`'s `prev_event_hash` is event `n-1`'s `event_hash`. -/
def chain_linked (l : List AuditEvent) : Bool := chainLinkedFrom Option.none l

/-- What the verifier's expected previous hash becomes after walking `l`
starting from `p`: the last event's stored `event_hash`, or `p` when `l` is
empty. -/
def chainPrev (p : Option String) (l : List AuditEvent) : Option String :=
  match l.getLast? with
  | Option.none => p
  | some e => some e.event_hash

/-! ### The spec's hash formula (for the refinement claim C4)

These definitions follow the specification's words, to be compared against
`compute_event_hash`, which is translated from the source. -/

/-- The spec's timestamp rendering: "a fixed, timezone-explicit ISO-8601 form
with sub-second precision" — the fraction is always present. -/
def spec_isoformat (t : DateTime) : String :=
  padNum 4 t.year ++ "-" ++ padNum 2 t.month ++ "-" ++ padNum 2 t.day ++ "T" ++
    padNum 2 t.hour ++ ":" ++ padNum 2 t.minute ++ ":" ++ padNum 2 t.second ++
    "." ++ padNum 6 t.microsecond ++ "+00:00"

/-- The spec's hash algorithm: concatenate, in fixed order, `prevHash` (empty
string if absent), `eventType`, `actorId` (empty string if absent),
`entityType` (empty string if absent), `entityId` (empty string if absent),
the canonical payload bytes, and the rendered timestamp; hex-encode the
256-bit digest of the UTF-8 bytes. A *present* identifier is rendered as its
string form. -/
def spec_computeHash (prevHash : Option String) (eventType : String)
    (actorId : PyVal) (entityType : Option String) (entityId : PyVal)
    (payload : Json) (createdAt : DateTime) : String :=
  sha256hex (utf8Encode (
    (match prevHash with | Option.none => "" | some s => s) ++ eventType ++
    (match actorId with | .none => "" | v => v.pyStr) ++
    (match entityType with | Option.none => "" | some s => s) ++
    (match entityId with | .none => "" | v => v.pyStr) ++
    canonical_json payload ++ spec_isoformat createdAt))

/-- The amended hash formula: as `spec_computeHash`, except that an identifier
is rendered as its string form only when *truthy* — `0` and `""` join `None`
in rendering as the empty string — and the timestamp is rendered by Python's
`isoformat()`, whose sub-second digits appear only when `microsecond` is
nonzero. -/
def amended_computeHash (prevHash : Option String) (eventType : String)
    (actorId : PyVal) (entityType : Option String) (entityId : PyVal)
    (payload : Json) (createdAt : DateTime) : String :=
  sha256hex (utf8Encode (
    (match prevHash with | Option.none => "" | some s => s) ++ eventType ++
    (if actorId.truthy then actorId.pyStr else "") ++
    (match entityType with | Option.none => "" | some s => s) ++
    (if entityId.truthy then entityId.pyStr else "") ++
    canonical_json payload ++
    (padNum 4 createdAt.year ++ "-" ++ padNum 2 createdAt.month ++ "-" ++
      padNum 2 createdAt.day ++ "T" ++ padNum 2 createdAt.hour ++ ":" ++
      padNum 2 createdAt.minute ++ ":" ++ padNum 2 createdAt.second ++
      (if createdAt.microsecond = 0 then ""
       else "." ++ padNum 6 createdAt.microsecond) ++ "+00:00")))

/-! ### Structural equality of JSON values (for claim C5)

Two values are structurally equal when they differ at most in the insertion
order of mapping entries, at any depth. -/

mutual

inductive StructEq : Json → Json → Prop where
  | null : StructEq .null .null
  | bool (b : Bool) : StructEq (.bool b) (.bool b)
  | num (n : Int) : StructEq (.num n) (.num n)
  | str (s : String) : StructEq (.str s) (.str s)
  | arr {l₁ l₂ : List Json} : StructEqList l₁ l₂ → StructEq (.arr l₁) (.arr l₂)
  | obj {l₁ l₁' l₂ : List (String × Json)} : l₁.Perm l₁' →
      StructEqEntries l₁' l₂ → StructEq (.obj l₁) (.obj l₂)

inductive StructEqList : List Json → List Json → Prop where
  | nil : StructEqList [] []
  | cons {j₁ j₂ : Json} {t₁ t₂ : List Json} : StructEq j₁ j₂ →
      StructEqList t₁ t₂ → StructEqList (j₁ :: t₁) (j₂ :: t₂)

inductive StructEqEntries : List (String × Json) → List (String × Json) → Prop where
  | nil : StructEqEntries [] []
  | cons {k : String} {v₁ v₂ : Json} {t₁ t₂ : List (String × Json)} :
      StructEq v₁ v₂ → StructEqEntries t₁ t₂ →
      StructEqEntries ((k, v₁) :: t₁) ((k, v₂) :: t₂)

end

/-- No duplicate mapping keys (a Python `dict` cannot hold two equal keys). -/
def nodupKeys : List String → Bool
  | [] => true
  | k :: t => !(t.contains k) && nodupKeys t

mutual

/-- A JSON value is well formed when no mapping in it, at any depth, repeats a
key — the values representable by Python data. -/
def wfJson : Json → Bool
  | .null => true
  | .bool _ => true
  | .num _ => true
  | .str _ => true
  | .arr elems => wfList elems
  | .obj entries => nodupKeys (entries.map Prod.fst) && wfEntries entries

def wfList : List Json → Bool
  | [] => true
  | j :: t => wfJson j && wfList t

def wfEntries : List (String × Json) → Bool
  | [] => true
  | (_, v) :: t => wfJson v && wfEntries t

end

/-! ### Concrete fixtures used by counterexamples and witnesses -/

/-- A well-formed first event for `ORG-1`: its stored `event_hash` is exactly
what the hasher yields on its own fields with no predecessor. -/
def fixE1 : AuditEvent :=
  { id := "E1"
    event_type := some "SCAN_COMPLETED"
    actor_id := some "user-1"
    org_id := some "ORG-1"
    entity_type := some "scan"
    entity_id := some "s1"
    event_payload := .obj [("score", .num 42)]
    created_at := ⟨2026, 1, 1, 0, 0, 0, 1⟩
    prev_event_hash := Option.none
    event_hash := compute_event_hash_json Option.none (some "SCAN_COMPLETED")
      (.str "user-1") (some "scan") (.str "s1") (.obj [("score", .num 42)])
      ⟨2026, 1, 1, 0, 0, 0, 1⟩ }

/-- A second event whose stored `event_hash` recomputes correctly from the
predecessor's `event_hash`, but whose stored `prev_event_hash` is garbage:
the link column itself was tampered with. -/
def fixE2badPrev : AuditEvent :=
  { id := "E2"
    event_type := some "EXPORT_CREATED"
    actor_id := some "user-1"
    org_id := some "ORG-1"
    entity_type := some "export"
    entity_id := some "x1"
    event_payload := .obj [("hash", .str "abc")]
    created_at := ⟨2026, 1, 1, 0, 0, 0, 2⟩
    prev_event_hash := some "bogus"
    event_hash := compute_event_hash_json (some fixE1.event_hash)
      (some "EXPORT_CREATED") (.str "user-1") (some "export") (.str "x1")
      (.obj [("hash", .str "abc")]) ⟨2026, 1, 1, 0, 0, 0, 2⟩ }

/-- Store holding the two fixture events of `ORG-1`. -/
def dbBadPrev : DB := ⟨["ORG-1"], [fixE1, fixE2badPrev]⟩

/-- A store with no registered organizations and no events. -/
def dbEmptyNoClients : DB := ⟨[], []⟩

/-- The event the buggy append writes for the unregistered `ghost-org`. -/
def ghostEvent : AuditEvent :=
  { id := "E1"
    event_type := some "SCAN_COMPLETED"
    actor_id := some "user-1"
    org_id := some "ghost-org"
    entity_type := some "scan"
    entity_id := some "s1"
    event_payload := .obj [("score", .num 42)]
    created_at := ⟨2026, 1, 1, 0, 0, 0, 1⟩
    prev_event_hash := Option.none
    event_hash := compute_event_hash_json Option.none (some "SCAN_COMPLETED")
      (.str "user-1") (some "scan") (.str "s1") (.obj [("score", .num 42)])
      ⟨2026, 1, 1, 0, 0, 0, 1⟩ }

/-- A store with one registered organization and no events. -/
def dbOrg1 : DB := ⟨["ORG-1"], []⟩

/-- A correctly linked second event for `ORG-1`: stored `prev_event_hash` is
`fixE1`'s hash and the stored `event_hash` recomputes from it. -/
def fixE2good : AuditEvent :=
  { id := "E2"
    event_type := some "EXPORT_CREATED"
    actor_id := some "user-1"
    org_id := some "ORG-1"
    entity_type := some "export"
    entity_id := some "x1"
    event_payload := .obj [("hash", .str "abc")]
    created_at := ⟨2026, 1, 1, 0, 0, 0, 2⟩
    prev_event_hash := some fixE1.event_hash
    event_hash := compute_event_hash_json (some fixE1.event_hash)
      (some "EXPORT_CREATED") (.str "user-1") (some "export") (.str "x1")
      (.obj [("hash", .str "abc")]) ⟨2026, 1, 1, 0, 0, 0, 2⟩ }

/-- Event `fixE1` after tampering directly with its stored payload in storage
(`score` 42 → 43); its id, timestamps and stored hashes are untouched. -/
def fixE1tampered : AuditEvent :=
  { fixE1 with event_payload := .obj [("score", .num 43)] }

/-- The intact two-event chain of `ORG-1`. -/
def dbChain2 : DB := ⟨["ORG-1"], [fixE1, fixE2good]⟩

/-- The same store after the interior payload tampering. -/
def dbChain2tampered : DB := ⟨["ORG-1"], [fixE1tampered, fixE2good]⟩

/-- The event appended into `dbOrg1` by the witness call of C7. -/
def witnessEvent : AuditEvent :=
  { id := "id1"
    event_type := some "T"
    actor_id := some "u"
    org_id := some "ORG-1"
    entity_type := Option.none
    entity_id := Option.none
    event_payload := .null
    created_at := ⟨2026, 1, 1, 0, 0, 0, 1⟩
    prev_event_hash := Option.none
    event_hash := compute_event_hash_json Option.none (some "T") (.str "u")
      Option.none (.int 0) .null ⟨2026, 1, 1, 0, 0, 0, 1⟩ }

/-- A nested payload with keys inserted out of order at two depths. -/
def jKeyOrder1 : Json :=
  .obj [("b", .num 1), ("a", .obj [("y", .num 2), ("x", .null)])]

/-- The same structured value with every mapping's entries in the other
order. -/
def jKeyOrder2 : Json :=
  .obj [("a", .obj [("x", .null), ("y", .num 2)]), ("b", .num 1)]

/-- The row `append_audit_event` constructs and persists on its success path
(serializable payload, successful commit). -/
def appendedEvent (db : DB) (t : Option String) (a org : PyVal)
    (et : Option String) (ei : PyVal) (j : Json) (now : DateTime)
    (nid : String) : AuditEvent :=
  { id := nid
    event_type := t
    actor_id := if a.truthy then some a.pyStr else Option.none
    org_id := if org.truthy then some org.pyStr else Option.none
    entity_type := et
    entity_id := if ei.truthy then some ei.pyStr else Option.none
    event_payload := j
    created_at := now
    prev_event_hash :=
      (lastByCreated (orgEvents db org)).map (fun e => e.event_hash)
    event_hash := compute_event_hash_json
      ((lastByCreated (orgEvents db org)).map (fun e => e.event_hash))
      t a et ei j now }

/-! ## Theorems -/

theorem sha256hex_abc : sha256hex (utf8Encode "abc") =
    "ba7816bf8f01cfea414140de5dae2223b00361a396177a9cb410ff61f20015ad" := by
  decide

theorem compute_event_hash_json_ok (p t : Option String) (a : PyVal)
    (et : Option String) (ei : PyVal) (j : Json) (c : DateTime) :
    compute_event_hash p t a et ei (.json j) c =
      .ok (compute_event_hash_json p t a et ei j c) := rfl

/-- C10: `compute_event_hash` identifies falsy present identifiers with absent
ones — with every other argument fixed, `actor_id = 0` and `actor_id = ""`
hash exactly as `actor_id = None`, and likewise for `entity_id`, so two events
differing only in such an identifier receive the same hash. -/
theorem compute_event_hash_falsy_id_collision (p t et : Option String)
    (payload : Payload) (c : DateTime) (a ei : PyVal) :
    (compute_event_hash p t (.int 0) et ei payload c =
      compute_event_hash p t .none et ei payload c) ∧
    (compute_event_hash p t (.str "") et ei payload c =
      compute_event_hash p t .none et ei payload c) ∧
    (compute_event_hash p t a et (.int 0) payload c =
      compute_event_hash p t a et .none payload c) ∧
    (compute_event_hash p t a et (.str "") payload c =
      compute_event_hash p t a et .none payload c) := by
  cases payload <;> exact ⟨rfl, rfl, rfl, rfl⟩

/-- C7: when `db.commit()` fails the caller gets the write-failure
`RuntimeError` and the store is unchanged (the rollback undoes the pending
row); and whenever `append_audit_event` returns an event, that event is
exactly the row just persisted — no event is returned without having been
committed. -/
theorem append_write_failure_semantics (db : DB) (t : Option String)
    (a org : PyVal) (et : Option String) (ei : PyVal) (j : Json)
    (now : DateTime) (nid : String) :
    ((append_audit_event db t a org et ei (.json j) now nid false).result =
        .error (.runtimeError "Audit log failure") ∧
      (append_audit_event db t a org et ei (.json j) now nid false).db = db) ∧
    ∀ (p : Payload) (ok : Bool) (e : AuditEvent),
      (append_audit_event db t a org et ei p now nid ok).result = .ok e →
      (append_audit_event db t a org et ei p now nid ok).db.events =
        db.events ++ [e] := by
  refine ⟨⟨rfl, rfl⟩, ?_⟩
  intro p ok e h
  cases p with
  | bad d => exact absurd h (by simp [append_audit_event, compute_event_hash,
      dumpsPayload])
  | json j' =>
    cases ok with
    | false => exact absurd h (by simp [append_audit_event,
        compute_event_hash, dumpsPayload])
    | true =>
      simp only [append_audit_event, compute_event_hash, dumpsPayload,
        if_true] at h ⊢
      cases h
      rfl

/-- C7 witness: a failing commit leaves the store unchanged, and a successful
call's returned event is the row appended to the store. -/
theorem append_write_failure_semantics_witness :
    (append_audit_event dbOrg1 (some "T") (.str "u") (.str "ORG-1")
      Option.none (.int 0) (.json .null) ⟨2026, 1, 1, 0, 0, 0, 1⟩ "id1"
      false).db = dbOrg1 ∧
    (append_audit_event dbOrg1 (some "T") (.str "u") (.str "ORG-1")
      Option.none (.int 0) (.json .null) ⟨2026, 1, 1, 0, 0, 0, 1⟩ "id1"
      true).db.events = dbOrg1.events ++ [witnessEvent] :=
  ⟨(append_write_failure_semantics dbOrg1 (some "T") (.str "u") (.str "ORG-1")
      Option.none (.int 0) .null ⟨2026, 1, 1, 0, 0, 0, 1⟩ "id1").1.2,
    (append_write_failure_semantics dbOrg1 (some "T") (.str "u") (.str "ORG-1")
      Option.none (.int 0) .null ⟨2026, 1, 1, 0, 0, 0, 1⟩ "id1").2
      (.json .null) true witnessEvent rfl⟩

/-- C8 counterexample: a non-serializable payload is rejected with a
`TypeError`, but only *after* the organization lock has been taken and the
last event read — the recorded step trace of the failing call is
`[lockClient, readLast]`, refuting "reported before any lock is acquired". -/
theorem append_bad_payload_not_before_lock :
    (append_audit_event dbOrg1 (some "SCAN") (.str "u") (.str "ORG-1")
        Option.none (.int 0) (.bad "set") ⟨2026, 1, 1, 0, 0, 0, 1⟩ "id1"
        true).ops = [.lockClient true, .readLast] ∧
    (append_audit_event dbOrg1 (some "SCAN") (.str "u") (.str "ORG-1")
        Option.none (.int 0) (.bad "set") ⟨2026, 1, 1, 0, 0, 0, 1⟩ "id1"
        true).result =
      .error (.typeError "Object of type set is not JSON serializable") :=
  ⟨rfl, rfl⟩

/-- C8 (amended): a non-serializable payload is reported as a caller input
error (`TypeError`), after the organization-scoped lock acquisition and the
last-event read but before any write is attempted, and the store is left
unchanged. -/
theorem append_bad_payload_semantics (db : DB) (t : Option String)
    (a org : PyVal) (et : Option String) (ei : PyVal) (d : String)
    (now : DateTime) (nid : String) (ok : Bool) :
    (append_audit_event db t a org et ei (.bad d) now nid ok).ops =
      (if org.truthy then [Op.lockClient (db.clients.contains org.pyStr)]
       else []) ++ [Op.readLast] ∧
    (append_audit_event db t a org et ei (.bad d) now nid ok).result =
      .error (.typeError ("Object of type " ++ d ++
        " is not JSON serializable")) ∧
    (append_audit_event db t a org et ei (.bad d) now nid ok).db = db :=
  ⟨rfl, rfl, rfl⟩

/-- C3: the code does *not* fail closed on a missing organization. With no row
in `clients`, the `SELECT ... FOR UPDATE` returns no row, its result is
discarded, and the append proceeds to create the chain's first event: the
call returns the event and persists it. This contradicts the source's own
comment ("If Client doesn't exist, we can't audit, which is correct
fail-closed") and the spec. -/
theorem append_missing_org_still_writes :
    (append_audit_event dbEmptyNoClients (some "SCAN_COMPLETED")
        (.str "user-1") (.str "ghost-org") (some "scan") (.str "s1")
        (.json (.obj [("score", .num 42)])) ⟨2026, 1, 1, 0, 0, 0, 1⟩ "E1"
        true).ops = [.lockClient false, .readLast, .addEvent, .commit] ∧
    (append_audit_event dbEmptyNoClients (some "SCAN_COMPLETED")
        (.str "user-1") (.str "ghost-org") (some "scan") (.str "s1")
        (.json (.obj [("score", .num 42)])) ⟨2026, 1, 1, 0, 0, 0, 1⟩ "E1"
        true).result = .ok ghostEvent ∧
    (append_audit_event dbEmptyNoClients (some "SCAN_COMPLETED")
        (.str "user-1") (.str "ghost-org") (some "scan") (.str "s1")
        (.json (.obj [("score", .num 42)])) ⟨2026, 1, 1, 0, 0, 0, 1⟩ "E1"
        true).db.events = [ghostEvent] :=
  ⟨rfl, rfl, rfl⟩

/-! ### Verifier lemmas -/

/-- Rewriting every stored `prev_event_hash` commutes with the organization
filter (the filter looks only at `org_id`). -/
theorem filter_map_setPrev (org : PyVal) (f : AuditEvent → Option String)
    (l : List AuditEvent) :
    (l.map (fun e => { e with prev_event_hash := f e })).filter
        (fun e => orgMatch org e.org_id) =
      (l.filter (fun e => orgMatch org e.org_id)).map
        (fun e => { e with prev_event_hash := f e }) := by
  induction l with
  | nil => rfl
  | cons e t ih =>
      by_cases horg : orgMatch org e.org_id <;>
        simp [List.filter_cons, horg, ih]

/-- The verifier's walk never reads the stored `prev_event_hash`. -/
theorem verifyFrom_map_setPrev (f : AuditEvent → Option String)
    (l : List AuditEvent) (p : Option String) :
    verifyFrom p (l.map (fun e => { e with prev_event_hash := f e })) =
      verifyFrom p l := by
  induction l generalizing p with
  | nil => rfl
  | cons e t ih => simp [verifyFrom, ih]

/-- C2 counterexample: a chain whose second event's stored `prev_event_hash`
is garbage (`"bogus"`, not the predecessor's `event_hash`) but whose stored
`event_hash` values all recompute correctly is reported *valid* — the
verifier does not compare the stored `prev_event_hash` with its expected
previous hash, contrary to the claim that such a chain is reported invalid at
that event. -/
theorem verify_bad_stored_prev_reported_valid :
    fixE2badPrev.prev_event_hash ≠ some fixE1.event_hash ∧
    verify_audit_chain dbBadPrev (.str "ORG-1") = ⟨true, Option.none⟩ := by
  constructor
  · decide
  · decide

/-- C2 (amended): `verify_audit_chain` walks the events in order maintaining
the expected previous hash and reports invalid (with the current event's id,
stopping) only when the recomputed hash differs from the stored `event_hash`;
the stored `prev_event_hash` is never consulted — rewriting it arbitrarily on
every event leaves the verdict unchanged. -/
theorem verify_chain_ignores_stored_prev (db : DB) (org : PyVal)
    (f : AuditEvent → Option String) :
    verify_audit_chain
        ⟨db.clients, db.events.map (fun e => { e with prev_event_hash := f e })⟩
        org =
      verify_audit_chain db org := by
  show verifyFrom Option.none _ = verifyFrom Option.none _
  rw [show orgEvents ⟨db.clients,
        db.events.map (fun e => { e with prev_event_hash := f e })⟩ org =
      (db.events.map (fun e => { e with prev_event_hash := f e })).filter
        (fun e => orgMatch org e.org_id) from rfl,
    filter_map_setPrev, verifyFrom_map_setPrev]
  rfl

/-- Lemma: `chainPrev` steps through a cons the way the verifier's expected previous
hash does. -/
theorem chainPrev_cons (p : Option String) (e : AuditEvent)
    (t : List AuditEvent) :
    chainPrev p (e :: t) = chainPrev (some e.event_hash) t := by
  cases t <;> simp [chainPrev, List.getLast?]

/-- Splitting the verifier's walk: the whole list verifies like the prefix
and, if the prefix passes, the suffix starting from the prefix's last stored
hash. -/
theorem verifyFrom_append (l₁ l₂ : List AuditEvent) (p : Option String) :
    verifyFrom p (l₁ ++ l₂) =
      if (verifyFrom p l₁).valid then verifyFrom (chainPrev p l₁) l₂
      else verifyFrom p l₁ := by
  induction l₁ generalizing p with
  | nil => simp [verifyFrom, chainPrev]
  | cons e t ih =>
      by_cases hmis : (e.event_hash !=
          compute_event_hash_json p e.event_type (optPy e.actor_id)
            e.entity_type (optPy e.entity_id) e.event_payload e.created_at) =
          true
      · simp [verifyFrom, hmis]
      · simp only [Bool.not_eq_true] at hmis
        simp [verifyFrom, hmis, ih, chainPrev_cons]

/-- C6: tamper detection. If an organization's stored chain verifies as valid
and one interior event is replaced in storage by a mutated copy — same id,
same stored `event_hash`, same position, but whose content fields (payload,
type, actor, ...) now recompute to a different digest — then rerunning the
verifier reports `valid: false` with that event's id as the first invalid
event. -/
theorem verify_tamper_detection (db db' : DB) (org : PyVal)
    (l₁ l₂ : List AuditEvent) (e e' : AuditEvent)
    (hdb : orgEvents db org = l₁ ++ e :: l₂)
    (hdb' : orgEvents db' org = l₁ ++ e' :: l₂)
    (hvalid : verify_audit_chain db org = ⟨true, Option.none⟩)
    (hid : e'.id = e.id) (hhash : e'.event_hash = e.event_hash)
    (hdiff : compute_event_hash_json (chainPrev Option.none l₁) e'.event_type
        (optPy e'.actor_id) e'.entity_type (optPy e'.entity_id)
        e'.event_payload e'.created_at ≠ e.event_hash) :
    verify_audit_chain db' org = ⟨false, some e.id⟩ := by
  unfold verify_audit_chain at hvalid ⊢
  rw [hdb, verifyFrom_append] at hvalid
  rw [hdb', verifyFrom_append]
  by_cases hpre : (verifyFrom Option.none l₁).valid = true
  · rw [if_pos hpre] at hvalid ⊢
    have : (e'.event_hash !=
        compute_event_hash_json (chainPrev Option.none l₁) e'.event_type
          (optPy e'.actor_id) e'.entity_type (optPy e'.entity_id)
          e'.event_payload e'.created_at) = true := by
      rw [hhash]
      exact bne_iff_ne.mpr (fun h => hdiff h.symm)
    simp [verifyFrom, this, hid]
  · rw [if_neg hpre] at hvalid
    rw [hvalid] at hpre
    simp at hpre

/-- C6 witness: directly editing the first event's payload in the intact
two-event chain (`score` 42 → 43) and rerunning the verifier reports
`valid: false` with that event's id. -/
theorem verify_tamper_detection_witness :
    verify_audit_chain dbChain2tampered (.str "ORG-1") =
      ⟨false, some fixE1.id⟩ :=
  verify_tamper_detection dbChain2 dbChain2tampered (.str "ORG-1") []
    [fixE2good] fixE1 fixE1tampered rfl rfl (by decide) rfl rfl (by decide)

/-- C4 counterexample: at `actor_id = 0` (falsy but present) with a timestamp
whose microsecond is zero, the code's hash differs from the spec's formula —
the code renders the falsy identifier as `""` where the spec renders the
present value, and `isoformat()` emits no sub-second digits. -/
theorem compute_event_hash_spec_formula_counterexample :
    compute_event_hash_json Option.none (some "SCAN_COMPLETED") (.int 0)
        (some "scan") (.str "s1") (.obj [("score", .num 42)])
        ⟨2026, 1, 1, 0, 0, 0, 0⟩ ≠
      spec_computeHash Option.none "SCAN_COMPLETED" (.int 0) (some "scan")
        (.str "s1") (.obj [("score", .num 42)]) ⟨2026, 1, 1, 0, 0, 0, 0⟩ := by
  decide

/-- C4 (amended): `compute_event_hash` equals the hex SHA-256 of the UTF-8
bytes of the fixed-order concatenation in which `prevHash`, `eventType`,
`entityType` are taken as the spec says, but an identifier (`actorId`,
`entityId`) is rendered as its string form only when truthy — `0` and `""`
render as the empty string like `None` — and the timestamp is rendered by
Python's `isoformat()`, which emits sub-second digits only when the
microsecond component is nonzero. -/
theorem compute_event_hash_amended_formula (p : Option String) (t : String)
    (a : PyVal) (et : Option String) (ei : PyVal) (j : Json) (c : DateTime) :
    compute_event_hash p (some t) a et ei (.json j) c =
      .ok (amended_computeHash p t a et ei j c) := by
  cases p <;> cases et <;> rfl

/-! ### Key-order lemmas (Python's `str` comparison used by `sort_keys`) -/

theorem charsLt_asymm : ∀ (a b : List Char), charsLt a b = true →
    charsLt b a = false
  | [], [], h => by simp [charsLt] at h
  | [], _ :: _, _ => rfl
  | _ :: _, [], h => by simp [charsLt] at h
  | c₁ :: t₁, c₂ :: t₂, h => by
      by_cases h₁ : c₁.toNat < c₂.toNat
      · simp [charsLt, h₁, Nat.lt_asymm h₁]
      · by_cases h₂ : c₂.toNat < c₁.toNat
        · rw [charsLt] at h; simp [h₁, h₂] at h
        · rw [charsLt] at h ⊢
          simp only [h₁, h₂, if_false] at h ⊢
          exact charsLt_asymm t₁ t₂ h

theorem charsLt_conn : ∀ (a b : List Char), charsLt a b = false →
    charsLt b a = false → a = b
  | [], [], _, _ => rfl
  | [], _ :: _, h, _ => by simp [charsLt] at h
  | _ :: _, [], _, h' => by simp [charsLt] at h'
  | c₁ :: t₁, c₂ :: t₂, h, h' => by
      by_cases h₁ : c₁.toNat < c₂.toNat
      · simp [charsLt, h₁] at h
      · by_cases h₂ : c₂.toNat < c₁.toNat
        · simp [charsLt, h₂] at h'
        · have hc : c₁ = c₂ := by
            have : c₁.toNat = c₂.toNat := by omega
            exact Char.eq_of_val_eq (UInt32.eq_of_val_eq
              (Fin.eq_of_val_eq this))
          subst hc
          rw [charsLt] at h h'
          simp only [h₁, if_false, Nat.lt_irrefl] at h h'
          rw [charsLt_conn t₁ t₂ h h']

theorem charsLt_trans : ∀ (a b c : List Char), charsLt a b = true →
    charsLt b c = true → charsLt a c = true
  | [], [], _, h, _ => by simp [charsLt] at h
  | [], _ :: _, [], _, h' => by simp [charsLt] at h'
  | [], _ :: _, _ :: _, _, _ => rfl
  | _ :: _, [], _, h, _ => by simp [charsLt] at h
  | _ :: _, _ :: _, [], _, h' => by simp [charsLt] at h'
  | c₁ :: t₁, c₂ :: t₂, c₃ :: t₃, h, h' => by
      rw [charsLt] at h h' ⊢
      by_cases h₁₂ : c₁.toNat < c₂.toNat <;>
        by_cases h₂₃ : c₂.toNat < c₃.toNat
      · simp [show c₁.toNat < c₃.toNat by omega]
      · by_cases h₃₂ : c₃.toNat < c₂.toNat
        · simp [h₂₃, h₃₂] at h'
        · simp [show c₁.toNat < c₃.toNat by omega]
      · by_cases h₂₁ : c₂.toNat < c₁.toNat
        · simp [h₁₂, h₂₁] at h
        · simp [show c₁.toNat < c₃.toNat by omega]
      · by_cases h₂₁ : c₂.toNat < c₁.toNat
        · simp [h₁₂, h₂₁] at h
        · by_cases h₃₂ : c₃.toNat < c₂.toNat
          · simp [h₂₃, h₃₂] at h'
          · simp only [h₁₂, h₂₁, if_false] at h
            simp only [h₂₃, h₃₂, if_false] at h'
            simp only [show ¬ c₁.toNat < c₃.toNat by omega,
              show ¬ c₃.toNat < c₁.toNat by omega, if_false]
            exact charsLt_trans t₁ t₂ t₃ h h'

theorem keyLe_total (a b : String) : keyLe a b = true ∨ keyLe b a = true := by
  unfold keyLe keyLt
  by_cases h : charsLt b.data a.data = true
  · right; simp [charsLt_asymm _ _ h]
  · simp at h; left; simp [h]

theorem keyLe_trans (a b c : String) (h₁ : keyLe a b = true)
    (h₂ : keyLe b c = true) : keyLe a c = true := by
  unfold keyLe keyLt at h₁ h₂ ⊢
  rw [Bool.not_eq_true'] at h₁ h₂ ⊢
  by_cases hca : charsLt c.data a.data = true
  · by_cases hbc : charsLt b.data c.data = true
    · exact absurd (charsLt_trans _ _ _ hbc hca) (by rw [h₁]; simp)
    · simp at hbc
      have : b.data = c.data := charsLt_conn _ _ hbc h₂
      rw [← this] at hca
      exact absurd hca (by rw [h₁]; simp)
  · simp at hca; exact hca

theorem keyLe_antisymm (a b : String) (h₁ : keyLe a b = true)
    (h₂ : keyLe b a = true) : a = b := by
  unfold keyLe keyLt at h₁ h₂
  rw [Bool.not_eq_true'] at h₁ h₂
  have : a.data = b.data := charsLt_conn _ _ h₂ h₁
  cases a with
  | mk da => cases b with
    | mk db => exact congrArg String.mk this

/-! ### Sorting lemmas for the canonical serializer -/

theorem insertPair_perm : ∀ (l : List (String × String)) (p : String × String),
    (insertPair p l).Perm (p :: l)
  | [], _ => List.Perm.refl _
  | q :: t, p => by
      rw [insertPair]
      by_cases h : keyLe p.1 q.1 = true
      · rw [if_pos h]
      · rw [if_neg h]
        exact ((insertPair_perm t p).cons q).trans (List.Perm.swap p q t)

theorem insertPair_sorted :
    ∀ (l : List (String × String)) (p : String × String),
      l.Pairwise (fun x y => keyLe x.1 y.1 = true) →
      (insertPair p l).Pairwise (fun x y => keyLe x.1 y.1 = true)
  | [], p, _ => by simp [insertPair]
  | q :: t, p, hs => by
      obtain ⟨hq, ht⟩ := List.pairwise_cons.mp hs
      rw [insertPair]
      by_cases h : keyLe p.1 q.1 = true
      · rw [if_pos h]
        refine List.pairwise_cons.mpr ⟨?_, hs⟩
        intro x hx
        rcases List.mem_cons.mp hx with rfl | hx'
        · exact h
        · exact keyLe_trans _ _ _ h (hq x hx')
      · rw [if_neg h]
        refine List.pairwise_cons.mpr ⟨?_, insertPair_sorted t p ht⟩
        intro x hx
        rcases List.mem_cons.mp ((insertPair_perm t p).mem_iff.mp hx) with
          rfl | hx'
        · exact (keyLe_total x.1 q.1).resolve_left h
        · exact hq x hx'

theorem sortPairs_perm : ∀ (l : List (String × String)), (sortPairs l).Perm l
  | [] => List.Perm.refl _
  | p :: t => (insertPair_perm (sortPairs t) p).trans ((sortPairs_perm t).cons p)

theorem sortPairs_sorted : ∀ (l : List (String × String)),
    (sortPairs l).Pairwise (fun x y => keyLe x.1 y.1 = true)
  | [] => List.Pairwise.nil
  | p :: t => insertPair_sorted (sortPairs t) p (sortPairs_sorted t)

theorem nodupKeys_iff : ∀ (ks : List String),
    nodupKeys ks = true ↔ ks.Nodup
  | [] => by simp [nodupKeys]
  | k :: t => by
      simp [nodupKeys, nodupKeys_iff t, List.nodup_cons]

/-- Two sorted pair lists that are permutations of each other and whose keys
repeat nowhere are equal — Python's key sort has a unique result on the items
of a `dict`. -/
theorem sorted_perm_nodupKeys_eq :
    ∀ (l₁ l₂ : List (String × String)), l₁.Perm l₂ →
      l₁.Pairwise (fun x y => keyLe x.1 y.1 = true) →
      l₂.Pairwise (fun x y => keyLe x.1 y.1 = true) →
      (l₁.map Prod.fst).Nodup → l₁ = l₂
  | [], l₂, hp, _, _, _ => hp.nil_eq
  | a :: t₁, [], hp, _, _, _ => by
      have := hp.length_eq
      simp at this
  | a :: t₁, b :: t₂, hp, hs₁, hs₂, hnd => by
      have hab : a = b := by
        by_contra hne
        have hat : a ∈ t₂ :=
          (List.mem_cons.mp (hp.subset (List.mem_cons_self a t₁))).resolve_left
            hne
        have hbt : b ∈ t₁ :=
          (List.mem_cons.mp (hp.symm.subset
            (List.mem_cons_self b t₂))).resolve_left (fun h => hne h.symm)
        have h₁ : keyLe a.1 b.1 = true := (List.pairwise_cons.mp hs₁).1 b hbt
        have h₂ : keyLe b.1 a.1 = true := (List.pairwise_cons.mp hs₂).1 a hat
        have hk : a.1 = b.1 := keyLe_antisymm _ _ h₁ h₂
        exact (List.nodup_cons.mp hnd).1
          (hk ▸ List.mem_map_of_mem Prod.fst hbt)
      subst hab
      rw [sorted_perm_nodupKeys_eq t₁ t₂ hp.cons_inv
        (List.pairwise_cons.mp hs₁).2 (List.pairwise_cons.mp hs₂).2
        (List.nodup_cons.mp hnd).2]

/-- Sorting the rendered entries is insensitive to the order they were
inserted in, as long as no key repeats. -/
theorem sortPairs_congr (l₁ l₂ : List (String × String)) (hp : l₁.Perm l₂)
    (hnd : (l₁.map Prod.fst).Nodup) : sortPairs l₁ = sortPairs l₂ :=
  sorted_perm_nodupKeys_eq _ _
    ((sortPairs_perm l₁).trans (hp.trans (sortPairs_perm l₂).symm))
    (sortPairs_sorted l₁) (sortPairs_sorted l₂)
    (((sortPairs_perm l₁).map Prod.fst).nodup_iff.mpr hnd)

/-! ### Append-chain lemmas -/

/-- The success path of one append, as an explicit record. -/
theorem append_json_commit_db (db : DB) (t : Option String) (a org : PyVal)
    (et : Option String) (ei : PyVal) (j : Json) (now : DateTime)
    (nid : String) :
    (append_audit_event db t a org et ei (.json j) now nid true).db =
      ⟨db.clients, db.events ++ [appendedEvent db t a org et ei j now nid]⟩ :=
  rfl

/-- One fold step of `lastByCreated` past an appended row. -/
theorem lastByCreated_append (l : List AuditEvent) (e : AuditEvent) :
    lastByCreated (l ++ [e]) =
      match lastByCreated l with
      | Option.none => some e
      | some a =>
          if a.created_at.key < e.created_at.key then some e else some a := by
  unfold lastByCreated
  rw [List.foldl_append]
  rfl

/-- Lemma: `lastByCreated` returns a row of the list. -/
theorem lastByCreated_mem (l : List AuditEvent) (a : AuditEvent)
    (h : lastByCreated l = some a) : a ∈ l := by
  induction l using List.reverseRecOn with
  | nil => exact absurd h (by simp [lastByCreated])
  | append_singleton t e ih =>
      rw [lastByCreated_append] at h
      cases ht : lastByCreated t with
      | none => rw [ht] at h; cases h; simp
      | some b =>
          rw [ht] at h
          dsimp only at h
          by_cases hk : b.created_at.key < e.created_at.key
          · rw [if_pos hk] at h; cases h; simp
          · rw [if_neg hk] at h; cases h
            exact List.mem_append_left _ (ih ht)

/-- When a row is later (strictly) than everything stored, `ORDER BY
created_at DESC LIMIT 1` returns it. -/
theorem lastByCreated_all_lt (l : List AuditEvent) (e : AuditEvent)
    (h : ∀ x ∈ l, x.created_at.key < e.created_at.key) :
    lastByCreated (l ++ [e]) = some e := by
  rw [lastByCreated_append]
  cases hl : lastByCreated l with
  | none => rfl
  | some a => simp [h a (lastByCreated_mem l a hl)]

/-- On a list whose timestamps strictly increase, `ORDER BY created_at DESC
LIMIT 1` is the last stored row. -/
theorem lastByCreated_sorted (l : List AuditEvent)
    (h : (l.map (fun e => e.created_at.key)).Pairwise (· < ·)) :
    lastByCreated l = l.getLast? := by
  induction l using List.reverseRecOn with
  | nil => rfl
  | append_singleton t e _ =>
      rw [List.getLast?_concat, lastByCreated_all_lt]
      intro x hx
      rw [List.map_append] at h
      exact (List.pairwise_append.mp h).2.2 x.created_at.key
        (List.mem_map_of_mem _ hx) e.created_at.key (by simp)

/-- Lemma: `chainPrev` from the start of the chain is the last stored hash. -/
theorem chainPrev_none_getLast (l : List AuditEvent) :
    chainPrev Option.none l = l.getLast?.map (fun e => e.event_hash) := by
  cases h : l.getLast? <;> simp [chainPrev, h]

/-- Extending a linked chain by one row: the whole is linked iff the prefix is
and the new row's `prev_event_hash` is the prefix's last hash. -/
theorem chainLinkedFrom_append_singleton (l : List AuditEvent)
    (p : Option String) (e : AuditEvent) :
    chainLinkedFrom p (l ++ [e]) =
      (chainLinkedFrom p l && (e.prev_event_hash == chainPrev p l)) := by
  induction l generalizing p with
  | nil => simp [chainLinkedFrom, chainPrev, List.getLast?]
  | cons a t ih => simp [chainLinkedFrom, ih, chainPrev_cons, Bool.and_assoc]

/-- A truthy organization id matches the stored text it is persisted as. -/
theorem orgMatch_self (org : PyVal) (h : org.truthy = true) :
    orgMatch org (some org.pyStr) = true := by
  cases org with
  | none => exact absurd h (by simp [PyVal.truthy])
  | int i => simp [orgMatch]
  | str s => simp [orgMatch]

/-- Appending one row extends the organization's filtered view by that row
when it belongs to the organization. -/
theorem orgEvents_append_event (db : DB) (org : PyVal) (e : AuditEvent) :
    orgEvents ⟨db.clients, db.events ++ [e]⟩ org =
      orgEvents db org ++ (if orgMatch org e.org_id then [e] else []) := by
  simp [orgEvents, List.filter_append, List.filter_cons]

/-- Invariant of a run of successful appends for a truthy organization with
strictly increasing clock readings: the organization's stored view stays a
hash chain with strictly increasing timestamps. -/
theorem appendMany_chain_invariant (org : PyVal) (horg : org.truthy = true)
    (calls : List AppendCall) :
    ∀ (db : DB),
      (∀ c ∈ calls, c.commitOk = true ∧ ∃ j, c.event_payload = .json j) →
      (calls.map (fun c => c.now.key)).Pairwise (· < ·) →
      (∀ e ∈ orgEvents db org, ∀ c ∈ calls, e.created_at.key < c.now.key) →
      chain_linked (orgEvents db org) = true →
      ((orgEvents db org).map (fun e => e.created_at.key)).Pairwise (· < ·) →
      chain_linked (orgEvents (appendMany org db calls) org) = true ∧
      ((orgEvents (appendMany org db calls) org).map
        (fun e => e.created_at.key)).Pairwise (· < ·) := by
  induction calls with
  | nil => intro db _ _ _ hchain hsort; exact ⟨hchain, hsort⟩
  | cons c t ih =>
      intro db hok hmono hbound hchain hsort
      obtain ⟨hcommit, j, hjson⟩ := hok c (List.mem_cons_self c t)
      have hstep : appendMany org db (c :: t) =
          appendMany org ⟨db.clients, db.events ++
            [appendedEvent db c.event_type c.actor_id org c.entity_type
              c.entity_id j c.now c.newId]⟩ t := by
        show appendMany org (append_audit_event db c.event_type c.actor_id org
          c.entity_type c.entity_id c.event_payload c.now c.newId
          c.commitOk).db t = _
        rw [hjson, hcommit, append_json_commit_db]
      rw [hstep]
      set e := appendedEvent db c.event_type c.actor_id org c.entity_type
        c.entity_id j c.now c.newId with he
      have hOE : orgEvents ⟨db.clients, db.events ++ [e]⟩ org =
          orgEvents db org ++ [e] := by
        rw [orgEvents_append_event]
        have : orgMatch org e.org_id = true := by
          rw [he]
          show orgMatch org (if org.truthy then some org.pyStr
            else Option.none) = true
          rw [horg]
          exact orgMatch_self org horg
        rw [this]
        simp
      have heCreated : e.created_at = c.now := rfl
      have hmono' := List.pairwise_cons.mp hmono
      have hchain' : chain_linked (orgEvents db org ++ [e]) = true := by
        unfold chain_linked at hchain ⊢
        rw [chainLinkedFrom_append_singleton, hchain]
        have hprev : e.prev_event_hash =
            chainPrev Option.none (orgEvents db org) := by
          rw [he]
          show (lastByCreated (orgEvents db org)).map (fun x => x.event_hash) = _
          rw [lastByCreated_sorted _ hsort, chainPrev_none_getLast]
        rw [hprev]
        simp
      have hsort' : ((orgEvents db org ++ [e]).map
          (fun x => x.created_at.key)).Pairwise (· < ·) := by
        rw [List.map_append]
        refine List.pairwise_append.mpr ⟨hsort, by simp, ?_⟩
        intro x hx y hy
        obtain ⟨a, ha, rfl⟩ := List.mem_map.mp hx
        simp only [List.map_cons, List.map_nil, List.mem_singleton] at hy
        rw [hy, heCreated]
        exact hbound a ha c (List.mem_cons_self c t)
      have hbound' : ∀ x ∈ orgEvents db org ++ [e], ∀ c' ∈ t,
          x.created_at.key < c'.now.key := by
        intro x hx c' hc'
        rcases List.mem_append.mp hx with hxl | hxe
        · exact hbound x hxl c' (List.mem_cons_of_mem c hc')
        · rw [List.mem_singleton.mp hxe, heCreated]
          exact hmono'.1 c'.now.key (List.mem_map_of_mem _ hc')
      have := ih ⟨db.clients, db.events ++ [e]⟩
        (fun c' hc' => hok c' (List.mem_cons_of_mem c hc')) hmono'.2
        (by rw [hOE]; exact hbound') (by rw [hOE]; exact hchain')
        (by rw [hOE]; exact hsort')
      exact this

/-- C1: starting from an organization with no stored events, any sequence of
successful `append_audit_event` calls (serializable payloads, successful
commits, strictly increasing clock readings) leaves that organization's
stored events, ordered by `created_at`, as a singly linked hash chain: event
0's `prev_event_hash` is absent and event n's `prev_event_hash` is event
n−1's `event_hash`. -/
theorem append_chain_hash_linked (org : PyVal) (calls : List AppendCall)
    (db : DB) (horg : org.truthy = true) (hstart : orgEvents db org = [])
    (hok : ∀ c ∈ calls, c.commitOk = true ∧ ∃ j, c.event_payload = .json j)
    (hmono : (calls.map (fun c => c.now.key)).Pairwise (· < ·)) :
    chain_linked (orgEvents (appendMany org db calls) org) = true ∧
    ((orgEvents (appendMany org db calls) org).map
      (fun e => e.created_at.key)).Pairwise (· < ·) :=
  appendMany_chain_invariant org horg calls db hok hmono
    (by rw [hstart]; intro e he; cases he) (by rw [hstart]; rfl)
    (by rw [hstart]; exact List.Pairwise.nil)

/-! ### Canonical serialization is key-order independent (claim C5) -/

theorem canonEntries_eq_map : ∀ (l : List (String × Json)),
    canonEntries l =
      l.map (fun q => (q.1, jsonString q.1 ++ ":" ++ canonical_json q.2))
  | [] => rfl
  | (k, v) :: t => by
      show (k, jsonString k ++ ":" ++ canonical_json v) :: canonEntries t = _
      rw [canonEntries_eq_map t]
      rfl

theorem wfEntries_iff : ∀ (l : List (String × Json)),
    wfEntries l = true ↔ ∀ p ∈ l, wfJson p.2 = true
  | [] => by simp [wfEntries]
  | (k, v) :: t => by
      show (wfJson v && wfEntries t) = true ↔ _
      rw [Bool.and_eq_true, wfEntries_iff t]
      simp [List.forall_mem_cons]

mutual

theorem structEq_canonical : ∀ {j₁ j₂ : Json}, StructEq j₁ j₂ →
    wfJson j₁ = true → wfJson j₂ = true →
    canonical_json j₁ = canonical_json j₂
  | _, _, .null, _, _ => rfl
  | _, _, .bool b, _, _ => rfl
  | _, _, .num n, _, _ => rfl
  | _, _, .str s, _, _ => rfl
  | _, _, @StructEq.arr l₁ l₂ h, w₁, w₂ => by
      show "[" ++ joinComma (canonElems l₁) ++ "]" =
        "[" ++ joinComma (canonElems l₂) ++ "]"
      rw [structEqList_canonical h w₁ w₂]
  | _, _, @StructEq.obj l₁ l₁' l₂ hperm hent, w₁, w₂ => by
      have w₁' : (nodupKeys (l₁.map Prod.fst) && wfEntries l₁) = true := w₁
      have w₂' : (nodupKeys (l₂.map Prod.fst) && wfEntries l₂) = true := w₂
      obtain ⟨hnd₁, hwf₁⟩ := Bool.and_eq_true _ _ ▸ w₁'
      obtain ⟨hnd₂, hwf₂⟩ := Bool.and_eq_true _ _ ▸ w₂'
      have hwf₁' : wfEntries l₁' = true :=
        (wfEntries_iff l₁').mpr
          (fun p hp => (wfEntries_iff l₁).mp hwf₁ p (hperm.mem_iff.mpr hp))
      have hE : canonEntries l₁' = canonEntries l₂ :=
        structEqEntries_canonical hent hwf₁' hwf₂
      have hpermC : (canonEntries l₁).Perm (canonEntries l₂) := by
        have h1 : (canonEntries l₁).Perm (canonEntries l₁') := by
          rw [canonEntries_eq_map l₁, canonEntries_eq_map l₁']
          exact hperm.map _
        exact hE ▸ h1
      have hndC : ((canonEntries l₁).map Prod.fst).Nodup := by
        rw [canonEntries_eq_map l₁, List.map_map]
        exact (nodupKeys_iff _).mp hnd₁
      show "\x7b" ++
          joinComma ((sortPairs (canonEntries l₁)).map Prod.snd) ++ "\x7d" =
        "\x7b" ++
          joinComma ((sortPairs (canonEntries l₂)).map Prod.snd) ++ "\x7d"
      rw [sortPairs_congr _ _ hpermC hndC]

theorem structEqList_canonical : ∀ {l₁ l₂ : List Json}, StructEqList l₁ l₂ →
    wfList l₁ = true → wfList l₂ = true → canonElems l₁ = canonElems l₂
  | _, _, .nil, _, _ => rfl
  | _, _, @StructEqList.cons j₁ j₂ t₁ t₂ hj ht, w₁, w₂ => by
      have w₁' : (wfJson j₁ && wfList t₁) = true := w₁
      have w₂' : (wfJson j₂ && wfList t₂) = true := w₂
      obtain ⟨wj₁, wt₁⟩ := Bool.and_eq_true _ _ ▸ w₁'
      obtain ⟨wj₂, wt₂⟩ := Bool.and_eq_true _ _ ▸ w₂'
      show canonical_json j₁ :: canonElems t₁ =
        canonical_json j₂ :: canonElems t₂
      rw [structEq_canonical hj wj₁ wj₂, structEqList_canonical ht wt₁ wt₂]

theorem structEqEntries_canonical : ∀ {l₁ l₂ : List (String × Json)},
    StructEqEntries l₁ l₂ → wfEntries l₁ = true → wfEntries l₂ = true →
    canonEntries l₁ = canonEntries l₂
  | _, _, .nil, _, _ => rfl
  | _, _, @StructEqEntries.cons k v₁ v₂ t₁ t₂ hv ht, w₁, w₂ => by
      have w₁' : (wfJson v₁ && wfEntries t₁) = true := w₁
      have w₂' : (wfJson v₂ && wfEntries t₂) = true := w₂
      obtain ⟨wv₁, wt₁⟩ := Bool.and_eq_true _ _ ▸ w₁'
      obtain ⟨wv₂, wt₂⟩ := Bool.and_eq_true _ _ ▸ w₂'
      show (k, jsonString k ++ ":" ++ canonical_json v₁) :: canonEntries t₁ =
        (k, jsonString k ++ ":" ++ canonical_json v₂) :: canonEntries t₂
      rw [structEq_canonical hv wv₁ wv₂, structEqEntries_canonical ht wt₁ wt₂]

end

/-- C5: `canonical_json` is deterministic and key-order independent — two
structurally equal JSON values (same structure, mapping entries possibly
inserted in different orders at any depth, no key repeated) serialize to
identical bytes, with keys sorted; consequently `compute_event_hash` returns
the same value for fixed other inputs, including a fixed `created_at`. -/
theorem canonical_json_key_order_independent (j₁ j₂ : Json)
    (h : StructEq j₁ j₂) (w₁ : wfJson j₁ = true) (w₂ : wfJson j₂ = true) :
    canonical_json j₁ = canonical_json j₂ ∧
    ∀ (p t et : Option String) (a ei : PyVal) (c : DateTime),
      compute_event_hash p t a et ei (.json j₁) c =
        compute_event_hash p t a et ei (.json j₂) c := by
  have hc := structEq_canonical h w₁ w₂
  refine ⟨hc, fun p t et a ei c => ?_⟩
  show Except.ok (sha256hex (utf8Encode (hashInput p t a et ei
      (canonical_json j₁) c))) =
    Except.ok (sha256hex (utf8Encode (hashInput p t a et ei
      (canonical_json j₂) c)))
  rw [hc]

/-- C5 witness: a two-level payload with both mappings permuted serializes to
the same canonical bytes and hashes identically. -/
theorem canonical_json_key_order_independent_witness :
    canonical_json jKeyOrder1 = canonical_json jKeyOrder2 ∧
    compute_event_hash Option.none (some "SCAN_COMPLETED") (.str "user-1")
        (some "scan") (.str "s1") (.json jKeyOrder1) ⟨2026, 1, 1, 0, 0, 0, 1⟩ =
      compute_event_hash Option.none (some "SCAN_COMPLETED") (.str "user-1")
        (some "scan") (.str "s1") (.json jKeyOrder2)
        ⟨2026, 1, 1, 0, 0, 0, 1⟩ := by
  have h : StructEq jKeyOrder1 jKeyOrder2 :=
    .obj
      (List.Perm.swap ("a", Json.obj [("y", Json.num 2), ("x", Json.null)])
        ("b", Json.num 1) [])
      (.cons
        (.obj (List.Perm.swap ("x", Json.null) ("y", Json.num 2) [])
          (.cons .null (.cons (.num 2) .nil)))
        (.cons (.num 1) .nil))
  have hmain := canonical_json_key_order_independent jKeyOrder1 jKeyOrder2 h
    (by decide) (by decide)
  exact ⟨hmain.1, hmain.2 Option.none (some "SCAN_COMPLETED") (some "scan")
    (.str "user-1") (.str "s1") ⟨2026, 1, 1, 0, 0, 0, 1⟩⟩

/-- C1 witness: two successful appends for `ORG-1` starting from an empty
store leave a linked two-event chain in timestamp order. -/
theorem append_chain_hash_linked_witness :
    chain_linked (orgEvents (appendMany (.str "ORG-1") dbOrg1
      [⟨some "SCAN_COMPLETED", .str "user-1", some "scan", .str "s1",
          .json (.obj [("score", .num 42)]), ⟨2026, 1, 1, 0, 0, 0, 1⟩, "E1",
          true⟩,
        ⟨some "EXPORT_CREATED", .str "user-1", some "export", .str "x1",
          .json (.obj [("hash", .str "abc")]), ⟨2026, 1, 1, 0, 0, 0, 2⟩, "E2",
          true⟩]) (.str "ORG-1")) = true ∧
    ((orgEvents (appendMany (.str "ORG-1") dbOrg1
      [⟨some "SCAN_COMPLETED", .str "user-1", some "scan", .str "s1",
          .json (.obj [("score", .num 42)]), ⟨2026, 1, 1, 0, 0, 0, 1⟩, "E1",
          true⟩,
        ⟨some "EXPORT_CREATED", .str "user-1", some "export", .str "x1",
          .json (.obj [("hash", .str "abc")]), ⟨2026, 1, 1, 0, 0, 0, 2⟩, "E2",
          true⟩]) (.str "ORG-1")).map
      (fun e => e.created_at.key)).Pairwise (· < ·) :=
  append_chain_hash_linked (.str "ORG-1")
    [⟨some "SCAN_COMPLETED", .str "user-1", some "scan", .str "s1",
        .json (.obj [("score", .num 42)]), ⟨2026, 1, 1, 0, 0, 0, 1⟩, "E1",
        true⟩,
      ⟨some "EXPORT_CREATED", .str "user-1", some "export", .str "x1",
        .json (.obj [("hash", .str "abc")]), ⟨2026, 1, 1, 0, 0, 0, 2⟩, "E2",
        true⟩] dbOrg1 (by decide) rfl
    (by
      intro c hc
      rcases List.mem_cons.mp hc with rfl | hc
      · exact ⟨rfl, ⟨.obj [("score", .num 42)], rfl⟩⟩
      rcases List.mem_cons.mp hc with rfl | hc
      · exact ⟨rfl, ⟨.obj [("hash", .str "abc")], rfl⟩⟩
      · cases hc)
    (by decide)

end Magnus
